import Mathlib

/-!
Shallow embedding of the jitsu ingestion-to-storage pipeline and proofs
about it.  Go functions are translated into executable Lean definitions;
external collaborators (the SQL engine, the network, other goroutines)
are abstracted into explicit oracle parameters.  Definitions keep the
names of the Go functions they embed.
-/

/-! ## Coordination service (in-memory locks) -/

/-- Embedding of getIdentifier: the lock identifier of a
(system, collection) pair. -/
def getIdentifier (system collection : String) : String :=
  system ++ "_" ++ collection

/-- Error message produced by the in-memory locking service when the retry
budget is exhausted, following the fmt.Errorf call in lockWithRetry. -/
def lockErrorMessage (system collection : String) : String :=
  "Error in-memory locking [" ++ system ++ "] system [" ++ collection ++
    "] collection: already locked"

/-- Embedding of InMemoryService.lockWithRetry.  The shared sync.Map of held
locks is abstracted by the oracle `loadedAt`: `loadedAt n = true` means the
n-th LoadOrStore call of this acquisition finds the identifier already
stored (lock held by someone else).  The first component is the Go return
value (the acquired lock's identifier, instrumented with the index of the
acquiring attempt, or the error); the second component counts the
one-second time.Sleep calls performed. -/
def InMemoryService.lockWithRetry (system collection : String) (loadedAt : Nat → Bool)
    (attempt retryCount : Nat) : Except String (String × Nat) × Nat :=
  if loadedAt attempt then
    if h : 3 ≤ retryCount then
      (Except.error (lockErrorMessage system collection), 0)
    else
      let r := InMemoryService.lockWithRetry system collection loadedAt (attempt + 1) (retryCount + 1)
      (r.1, r.2 + 1)
  else
    (Except.ok (getIdentifier system collection, attempt), 0)
termination_by 3 - retryCount
decreasing_by omega

/-- Embedding of InMemoryService.Lock: delegates to lockWithRetry starting
at retry count 0. -/
def InMemoryService.Lock (system collection : String) (loadedAt : Nat → Bool) :
    Except String (String × Nat) × Nat :=
  InMemoryService.lockWithRetry system collection loadedAt 0 0

/-- Embedding of InMemoryService.TryLock: delegates to lockWithRetry starting
at retry count 3. -/
def InMemoryService.TryLock (system collection : String) (loadedAt : Nat → Bool) :
    Except String (String × Nat) × Nat :=
  InMemoryService.lockWithRetry system collection loadedAt 0 3

/-- C3 counterexample.  The claim says Lock retries forever and never returns
an already-locked error, and that TryLock performs 3 retries before failing.
In the code, with the lock permanently held, Lock returns the already-locked
error after 3 sleeps (4 attempts); and TryLock returns the error immediately
(0 sleeps) even though the lock is free from the second attempt on, so it
performs no retry at all. -/
theorem C3_counterexample :
    InMemoryService.Lock "sys" "col" (fun _ => true) =
      (Except.error (lockErrorMessage "sys" "col"), 3) ∧
    InMemoryService.TryLock "sys" "col" (fun n => decide (n = 0)) =
      (Except.error (lockErrorMessage "sys" "col"), 0) := by
  constructor <;>
    simp [InMemoryService.Lock, InMemoryService.TryLock, InMemoryService.lockWithRetry]

/-- C3 (amended): both Lock and TryLock delegate to lockWithRetry with a
retry budget capped at 3.  Lock starts at retry count 0: it makes at most
4 attempts separated by constant 1-second sleeps and returns an
already-locked error if all 4 find the lock held.  TryLock starts at retry
count 3: it makes a single attempt and returns the error immediately when
the lock is held.  The delay is constant (1 s per sleep), not exponential. -/
theorem C3_lock_bounded_retry_characterization (system collection : String)
    (loadedAt : Nat → Bool) :
    InMemoryService.Lock system collection loadedAt =
      (if loadedAt 0 = false then (Except.ok (getIdentifier system collection, 0), 0)
       else if loadedAt 1 = false then (Except.ok (getIdentifier system collection, 1), 1)
       else if loadedAt 2 = false then (Except.ok (getIdentifier system collection, 2), 2)
       else if loadedAt 3 = false then (Except.ok (getIdentifier system collection, 3), 3)
       else (Except.error (lockErrorMessage system collection), 3)) ∧
    InMemoryService.TryLock system collection loadedAt =
      (if loadedAt 0 = false then (Except.ok (getIdentifier system collection, 0), 0)
       else (Except.error (lockErrorMessage system collection), 0)) := by
  cases h0 : loadedAt 0 <;> cases h1 : loadedAt 1 <;> cases h2 : loadedAt 2 <;>
    cases h3 : loadedAt 3 <;>
      simp [InMemoryService.Lock, InMemoryService.TryLock, InMemoryService.lockWithRetry,
        h0, h1, h2, h3]

/-! ## Values, rows and tables (SQL adapter model) -/

/-- Parameter value bound in a query; `none` models the Go zero value that
`value, _ := row[column]` yields for a missing key. -/
abbrev Val := Option String

/-- Event object as seen by the adapter: an association list from column
name to scalar value (the map[string]interface{} of the Go code). -/
abbrev Obj := List (String × String)

/-- Lookup of a column in a row, following `value, _ := row[column]`. -/
def lookupVal (row : Obj) (column : String) : Val :=
  (row.find? (fun p => p.1 == column)).map (fun p => p.2)

/-- Adapter-side table: name, column list (an enumeration of the Go
Columns map) and primary-key fields. -/
structure MTable where
  name : String
  columns : List String
  pkFields : List String
deriving DecidableEq

/-- Parameter values one row contributes, one per header column, following
the inner loop of bulkInsertInTransaction. -/
def rowValues (header : List String) (row : Obj) : List Val :=
  header.map (fun column => lookupVal row column)

/-- Embedding of the mysqlValuesLimit constant: the engine's cap on bound
parameter values per statement. -/
def mysqlValuesLimit : Nat := 65535

/-- Number of parameter values bound by one statement whose rows are kept
grouped (the Go code keeps them flattened in valueArgs; this is
len(valueArgs)). -/
def valuesCount (stmt : List (List Val)) : Nat := (stmt.map List.length).sum

/-- Embedding of the loop of Mysql.bulkInsertInTransaction.  valueArgs is
the accumulated parameter list of the statement under construction, kept
grouped by row (its flat length is valuesCount valueArgs).  Each emitted
element is the parameter list of one executed INSERT statement: when
adding the next row would push the flat length over mysqlValuesLimit the
current statement is executed and the builder reset, and a final
statement is executed if parameters remain. -/
def bulkInsertLoop (header : List String) : List Obj → List (List Val) → List (List (List Val))
  | [], valueArgs => if 0 < valuesCount valueArgs then [valueArgs] else []
  | row :: rest, valueArgs =>
    if mysqlValuesLimit < valuesCount valueArgs + header.length then
      valueArgs :: bulkInsertLoop header rest [rowValues header row]
    else
      bulkInsertLoop header rest (valueArgs ++ [rowValues header row])

/-- Embedding of Mysql.bulkInsertInTransaction: the list of INSERT
statements (each given by the row tuples it binds) executed for the given
objects. -/
def Mysql.bulkInsertInTransaction (table : MTable) (objects : List Obj) : List (List (List Val)) :=
  bulkInsertLoop table.columns objects []

/-- Statements issued by Mysql.bulkStoreInTransaction: either batched plain
INSERT statements (insertTemplate) or a prepared merge statement with
conflict resolution on the PK constraint (mergeTemplate, ON CONFLICT ON
CONSTRAINT ... DO UPDATE), executed once per row. -/
inductive BulkStatements where
  | insert (stmts : List (List (List Val)))
  | merge (rows : List (List Val))
deriving DecidableEq

/-- Embedding of Mysql.bulkStoreInTransaction: dispatches on whether the
table has primary-key fields. -/
def Mysql.bulkStoreInTransaction (table : MTable) (objects : List Obj) : BulkStatements :=
  if table.pkFields.length = 0 then
    BulkStatements.insert (Mysql.bulkInsertInTransaction table objects)
  else
    BulkStatements.merge (objects.map (rowValues table.columns))

/-- Projection of a stored row tuple onto the primary-key columns. -/
def pkProjection (columns pkFields : List String) (vals : List Val) : List Val :=
  (columns.zip vals).filterMap (fun p => if p.1 ∈ pkFields then some p.2 else none)

/-- Modelled from the spec: the external SQL engine's semantics of the
merge statement generated from mergeTemplate ("merges with conflict
resolution on PK"): a stored row with the same primary-key projection is
updated in place with the new values, otherwise the row is appended. -/
def applyMergeRow (columns pkFields : List String) (st : List (List Val)) (vals : List Val) :
    List (List Val) :=
  if st.any (fun r => decide (pkProjection columns pkFields r = pkProjection columns pkFields vals)) then
    st.map (fun r =>
      if pkProjection columns pkFields r = pkProjection columns pkFields vals then vals else r)
  else
    st ++ [vals]

/-- Modelled from the spec: the external SQL engine executing one plain
INSERT statement.  The engine rejects a malformed statement binding no
values and a statement binding more than mysqlValuesLimit parameter
values (the cap the spec acknowledges); otherwise the bound row tuples
are appended to the table contents. -/
def execInsertStmt (st : List (List Val)) (stmt : List (List Val)) :
    Except String (List (List Val)) :=
  if valuesCount stmt = 0 ∨ mysqlValuesLimit < valuesCount stmt then
    Except.error "malformed or over-cap INSERT statement"
  else
    Except.ok (st ++ stmt)

/-- Modelled from the spec: the external SQL engine executing the merge
statement on one row.  The same malformed/over-cap rejection applies to
the row's bound values; otherwise the row is upserted, keyed by the PK
constraint. -/
def execMergeRow (columns pkFields : List String) (st : List (List Val)) (vals : List Val) :
    Except String (List (List Val)) :=
  if vals.length = 0 ∨ mysqlValuesLimit < vals.length then
    Except.error "malformed or over-cap merge execution"
  else
    Except.ok (applyMergeRow columns pkFields st vals)

/-- Sequential statement execution with first-error short-circuit (the
surrounding transaction then rolls back). -/
def execAll {α : Type} (f : List (List Val) → α → Except String (List (List Val))) :
    List α → List (List Val) → Except String (List (List Val))
  | [], st => Except.ok st
  | x :: rest, st =>
    match f st x with
    | Except.error e => Except.error e
    | Except.ok st2 => execAll f rest st2

/-- Modelled from the spec: the external SQL engine executing the
statements issued by bulkStoreInTransaction against table contents st,
stopping at the first rejected statement. -/
def execBulkStatements (columns pkFields : List String) (st : List (List Val)) :
    BulkStatements → Except String (List (List Val))
  | BulkStatements.insert stmts => execAll execInsertStmt stmts st
  | BulkStatements.merge rows => execAll (execMergeRow columns pkFields) rows st

/-- Table contents visible after Mysql.bulkStoreInTransaction runs inside
its transaction against contents st: the new contents on success, st
unchanged when the engine rejected a statement and the transaction rolled
back (engine semantics modelled from the spec). -/
def Mysql.bulkStoreResult (table : MTable) (objects : List Obj) (st : List (List Val)) :
    List (List Val) :=
  match execBulkStatements table.columns table.pkFields st
      (Mysql.bulkStoreInTransaction table objects) with
  | Except.error _ => st
  | Except.ok st2 => st2

/-- At most one stored row per primary-key value. -/
def atMostOnePerKey (columns pkFields : List String) (st : List (List Val)) : Prop :=
  ∀ key : List Val, st.countP (fun r => decide (pkProjection columns pkFields r = key)) ≤ 1

/-! ### Batching facts (C7) -/

theorem valuesCount_cons (t : List Val) (ts : List (List Val)) :
    valuesCount (t :: ts) = t.length + valuesCount ts := by
  simp [valuesCount]

theorem valuesCount_nil : valuesCount [] = 0 := rfl

theorem valuesCount_singleton (t : List Val) : valuesCount [t] = t.length := by
  simp [valuesCount]

theorem valuesCount_append_single (ts : List (List Val)) (t : List Val) :
    valuesCount (ts ++ [t]) = valuesCount ts + t.length := by
  simp [valuesCount]

theorem rowValues_length (header : List String) (row : Obj) :
    (rowValues header row).length = header.length := by
  simp [rowValues]

/-- Rows are never split across statements: the concatenation of the bound
row tuples of all executed statements is the row tuples of all input
objects, in order, provided the header is non-empty. -/
theorem bulkInsertLoop_flatten (header : List String) (h1 : 1 ≤ header.length)
    (objects : List Obj) :
    ∀ acc : List (List Val), (∀ t ∈ acc, t.length = header.length) →
      (bulkInsertLoop header objects acc).flatten = acc ++ objects.map (rowValues header) := by
  induction objects with
  | nil =>
    intro acc hacc
    simp only [bulkInsertLoop]
    by_cases h : 0 < valuesCount acc
    · simp [h]
    · have hnil : acc = [] := by
        cases acc with
        | nil => rfl
        | cons t ts =>
          have ht : t.length = header.length := hacc t (List.mem_cons_self t ts)
          have hc := valuesCount_cons t ts
          omega
      subst hnil
      simp
  | cons row rest ih =>
    intro acc hacc
    simp only [bulkInsertLoop]
    by_cases h : mysqlValuesLimit < valuesCount acc + header.length
    · rw [if_pos h, List.flatten_cons,
        ih [rowValues header row] (by
          intro t ht
          simp only [List.mem_singleton] at ht
          subst ht
          exact rowValues_length header row)]
      simp
    · rw [if_neg h,
        ih (acc ++ [rowValues header row]) (by
          intro t ht
          rcases List.mem_append.mp ht with h2 | h2
          · exact hacc t h2
          · simp only [List.mem_singleton] at h2
            subst h2
            exact rowValues_length header row)]
      simp

/-- Every executed statement binds at least one and at most
mysqlValuesLimit parameter values, in whole rows, provided the header fits
under the limit. -/
theorem bulkInsertLoop_bounds (header : List String)
    (h2 : header.length ≤ mysqlValuesLimit) (objects : List Obj) :
    ∀ acc : List (List Val), (∀ t ∈ acc, t.length = header.length) →
      valuesCount acc ≤ mysqlValuesLimit →
      ∀ stmt ∈ bulkInsertLoop header objects acc,
        0 < valuesCount stmt ∧ valuesCount stmt ≤ mysqlValuesLimit ∧
        ∀ tuple ∈ stmt, tuple.length = header.length := by
  induction objects with
  | nil =>
    intro acc hacc hle stmt hstmt
    simp only [bulkInsertLoop] at hstmt
    by_cases h : 0 < valuesCount acc
    · rw [if_pos h] at hstmt
      simp only [List.mem_singleton] at hstmt
      subst hstmt
      exact ⟨h, hle, hacc⟩
    · rw [if_neg h] at hstmt
      simp at hstmt
  | cons row rest ih =>
    intro acc hacc hle stmt hstmt
    simp only [bulkInsertLoop] at hstmt
    by_cases h : mysqlValuesLimit < valuesCount acc + header.length
    · rw [if_pos h] at hstmt
      rcases List.mem_cons.mp hstmt with rfl | hmem
      · exact ⟨by omega, hle, hacc⟩
      · refine ih [rowValues header row] ?_ ?_ stmt hmem
        · intro t ht
          simp only [List.mem_singleton] at ht
          subst ht
          exact rowValues_length header row
        · have := valuesCount_cons (rowValues header row) []
          have := rowValues_length header row
          simp only [valuesCount, List.map_nil, List.sum_nil] at *
          omega
    · rw [if_neg h] at hstmt
      refine ih (acc ++ [rowValues header row]) ?_ ?_ stmt hstmt
      · intro t ht
        rcases List.mem_append.mp ht with h3 | h3
        · exact hacc t h3
        · simp only [List.mem_singleton] at h3
          subst h3
          exact rowValues_length header row
      · have ha := valuesCount_append_single acc (rowValues header row)
        have hb := rowValues_length header row
        omega

/-- With a header wider than the parameter cap, a single row produces one
empty executed statement followed by one statement binding one value per
header column, which exceeds the cap. -/
theorem bulkInsertLoop_single_wide_row (header : List String) (row : Obj)
    (h : mysqlValuesLimit < header.length) :
    bulkInsertLoop header [row] [] = [[], [rowValues header row]] := by
  have hcond : mysqlValuesLimit < valuesCount [] + header.length := by
    simpa [valuesCount] using h
  have hvc : valuesCount [rowValues header row] = header.length := by
    simp [valuesCount, rowValues_length]
  have hstep1 : bulkInsertLoop header [row] [] =
      [] :: bulkInsertLoop header [] [rowValues header row] := by
    simp only [bulkInsertLoop]
    rw [if_pos hcond]
  have hstep2 : bulkInsertLoop header [] [rowValues header row] = [[rowValues header row]] := by
    simp only [bulkInsertLoop]
    rw [if_pos (show 0 < valuesCount [rowValues header row] by omega)]
  rw [hstep1, hstep2]

/-- C7 counterexample.  The claim quantifies over every table: it fails on
degenerate column sets.  With 65,536 columns the code first executes an
empty INSERT statement (0 values) and then a statement binding 65,536
values, exceeding the 65,535 cap; with zero columns no statement is
executed at all, so the input row is not included in any statement. -/
theorem C7_counterexample :
    ((Mysql.bulkInsertInTransaction ⟨"t", List.replicate 65536 "c", []⟩ [[]]).map valuesCount =
        [0, 65536] ∧ mysqlValuesLimit < 65536) ∧
    Mysql.bulkInsertInTransaction ⟨"t", [], []⟩ [[("a", "b")]] = [] := by
  refine ⟨⟨?_, by decide⟩, ?_⟩
  · have h := bulkInsertLoop_single_wide_row (List.replicate 65536 "c") []
      (by rw [List.length_replicate]; decide)
    show (bulkInsertLoop (List.replicate 65536 "c") [[]] []).map valuesCount = [0, 65536]
    rw [h, List.map_cons, List.map_cons, List.map_nil, valuesCount_singleton,
      rowValues_length, List.length_replicate, valuesCount_nil]
  · simp [Mysql.bulkInsertInTransaction, bulkInsertLoop, valuesCount, rowValues,
      mysqlValuesLimit]

/-- C7 (amended): provided the table has at least one column and its column
count does not exceed the 65,535-parameter cap, bulk insert into a table
without primary keys issues plain INSERT statements in sub-batches: each
executed statement binds at least one and at most 65,535 parameter values,
statements bind whole rows, and the concatenation of the bound rows over
all statements is exactly the input rows, in the original order (each row
in exactly one statement). -/
theorem C7_bulk_insert_batching (table : MTable) (objects : List Obj)
    (hpk : table.pkFields = []) (h1 : 1 ≤ table.columns.length)
    (h2 : table.columns.length ≤ mysqlValuesLimit) :
    Mysql.bulkStoreInTransaction table objects =
      BulkStatements.insert (Mysql.bulkInsertInTransaction table objects) ∧
    (Mysql.bulkInsertInTransaction table objects).flatten =
      objects.map (rowValues table.columns) ∧
    ∀ stmt ∈ Mysql.bulkInsertInTransaction table objects,
      0 < valuesCount stmt ∧ valuesCount stmt ≤ mysqlValuesLimit ∧
      ∀ tuple ∈ stmt, tuple.length = table.columns.length := by
  refine ⟨by simp [Mysql.bulkStoreInTransaction, hpk], ?_, ?_⟩
  · simpa using bulkInsertLoop_flatten table.columns h1 objects [] (by intro t ht; simp at ht)
  · exact bulkInsertLoop_bounds table.columns h2 objects [] (by intro t ht; simp at ht)
      (by simp [valuesCount])

theorem C7_bulk_insert_batching_witness :
    (Mysql.bulkInsertInTransaction ⟨"events", ["a", "b"], []⟩
        [[("a", "1")], [("b", "2")]]).flatten =
      [[("a", "1")], [("b", "2")]].map (rowValues ["a", "b"]) :=
  (C7_bulk_insert_batching ⟨"events", ["a", "b"], []⟩ [[("a", "1")], [("b", "2")]]
    rfl (by decide) (by decide)).2.1

/-! ### Merge semantics (C4) -/

/-- One merge execution preserves "at most one stored row per PK value". -/
theorem applyMergeRow_atMostOne (columns pkFields : List String)
    (st : List (List Val)) (v : List Val)
    (h : atMostOnePerKey columns pkFields st) :
    atMostOnePerKey columns pkFields (applyMergeRow columns pkFields st v) := by
  intro key
  unfold applyMergeRow
  by_cases hex : st.any
      (fun r => decide (pkProjection columns pkFields r = pkProjection columns pkFields v)) = true
  · rw [if_pos hex]
    have hmap : (st.map (fun r =>
        if pkProjection columns pkFields r = pkProjection columns pkFields v then v else r)).countP
          (fun r => decide (pkProjection columns pkFields r = key)) =
        st.countP (fun r => decide (pkProjection columns pkFields r = key)) := by
      rw [List.countP_map]
      apply List.countP_congr
      intro r hr
      by_cases hp : pkProjection columns pkFields r = pkProjection columns pkFields v
      · simp [Function.comp, hp]
      · simp [Function.comp, hp]
    rw [hmap]
    exact h key
  · rw [if_neg hex]
    rw [List.countP_append]
    by_cases hk : pkProjection columns pkFields v = key
    · have hzero : st.countP (fun r => decide (pkProjection columns pkFields r = key)) = 0 := by
        rw [List.countP_eq_zero]
        intro r hr
        simp only [decide_eq_true_eq]
        intro hcontra
        exact hex (List.any_eq_true.mpr ⟨r, hr, by simp [hcontra, hk]⟩)
      simp [hzero, hk]
    · have hone : ([v] : List (List Val)).countP
          (fun r => decide (pkProjection columns pkFields r = key)) = 0 := by
        simp [hk]
      rw [hone]
      simpa using h key

/-- Executing one guarded merge row, and hence the whole sequence,
preserves "at most one stored row per PK value". -/
theorem execAll_merge_inv (columns pkFields : List String) (rows : List (List Val)) :
    ∀ st s, atMostOnePerKey columns pkFields st →
      execAll (execMergeRow columns pkFields) rows st = Except.ok s →
      atMostOnePerKey columns pkFields s := by
  induction rows with
  | nil =>
    intro st s hinv h
    simp only [execAll, Except.ok.injEq] at h
    rw [← h]
    exact hinv
  | cons r rest ih =>
    intro st s hinv h
    simp only [execAll, execMergeRow] at h
    by_cases hg : r.length = 0 ∨ mysqlValuesLimit < r.length
    · rw [if_pos hg] at h
      simp at h
    · rw [if_neg hg] at h
      exact ih (applyMergeRow columns pkFields st r) s
        (applyMergeRow_atMostOne columns pkFields st r hinv) h

/-- Statements within the parameter bounds are all accepted: the insert
statements execute in sequence and append every bound row tuple. -/
theorem execAll_insert_ok (stmts : List (List (List Val))) :
    (∀ stmt ∈ stmts, 0 < valuesCount stmt ∧ valuesCount stmt ≤ mysqlValuesLimit) →
    ∀ st, execAll execInsertStmt stmts st = Except.ok (st ++ stmts.flatten) := by
  induction stmts with
  | nil =>
    intro hb st
    simp [execAll]
  | cons stmt rest ih =>
    intro hb st
    obtain ⟨hs1, hs2⟩ := hb stmt (List.mem_cons_self stmt rest)
    have hcond : ¬(valuesCount stmt = 0 ∨ mysqlValuesLimit < valuesCount stmt) := by omega
    simp [execAll, execInsertStmt, hcond,
      ih (fun s hsm => hb s (List.mem_cons_of_mem stmt hsm)), List.append_assoc]

/-- A rejected statement rolls the transaction back: the visible contents
are unchanged. -/
theorem bulkStoreResult_rollback (table : MTable) (objects : List Obj)
    (st : List (List Val)) (e : String)
    (h : execBulkStatements table.columns table.pkFields st
        (Mysql.bulkStoreInTransaction table objects) = Except.error e) :
    Mysql.bulkStoreResult table objects st = st := by
  unfold Mysql.bulkStoreResult
  rw [h]

/-- C4 counterexample.  The claim quantifies over every table and list of
rows.  For a zero-column table without PK the code executes no INSERT
statement at all, so the input row is dropped, while the claimed "both
rows appear" semantics requires the (empty) row tuple to be stored.  For
a table wider than the 65,535-parameter cap the code executes an empty
INSERT and then an over-cap statement, which the engine rejects, rolling
the transaction back: again nothing is stored. -/
theorem C4_counterexample :
    Mysql.bulkStoreResult ⟨"t", [], []⟩ [[("a", "b")]] [] = [] ∧
    ([] : List (List Val)) ++ [[("a", "b")]].map (rowValues ([] : List String)) ≠ [] ∧
    Mysql.bulkStoreResult ⟨"t", List.replicate 65536 "c", []⟩ [[]] [] = [] := by
  refine ⟨by rfl, by decide, ?_⟩
  have h := bulkInsertLoop_single_wide_row (List.replicate 65536 "c") []
    (by rw [List.length_replicate]; decide)
  apply bulkStoreResult_rollback _ _ _ "malformed or over-cap INSERT statement"
  rw [show Mysql.bulkStoreInTransaction ⟨"t", List.replicate 65536 "c", []⟩ [[]] =
      BulkStatements.insert (bulkInsertLoop (List.replicate 65536 "c") [[]] []) from rfl, h]
  rfl

/-- C4 (amended): bulk store dispatches on the primary-key fields: with no
PK fields plain INSERT statements are issued, with PK fields the merge
statement with conflict resolution on the PK constraint is issued and
executed per row.  Provided the table has between 1 and 65,535 columns,
the no-PK path appends one tuple per input row to the table contents, so
repeated rows both appear; outside that range no row is stored (zero
columns issue no statement, and an over-cap table's statement is rejected
by the engine and rolled back, per the counterexample).  With PK fields
the stored contents keep at most one row per primary-key value in every
case, so repeated inserts of rows sharing the same PK value collapse to a
single row.  Engine semantics of the two statement forms modelled from
the spec, including the parameter cap. -/
theorem C4_bulk_store_pk_dispatch (table : MTable) (objects : List Obj)
    (st : List (List Val)) :
    (table.pkFields = [] →
      Mysql.bulkStoreInTransaction table objects =
        BulkStatements.insert (Mysql.bulkInsertInTransaction table objects)) ∧
    (table.pkFields ≠ [] →
      Mysql.bulkStoreInTransaction table objects =
        BulkStatements.merge (objects.map (rowValues table.columns))) ∧
    (table.pkFields = [] → 1 ≤ table.columns.length →
      table.columns.length ≤ mysqlValuesLimit →
      Mysql.bulkStoreResult table objects st = st ++ objects.map (rowValues table.columns)) ∧
    (table.pkFields ≠ [] →
      atMostOnePerKey table.columns table.pkFields st →
      atMostOnePerKey table.columns table.pkFields (Mysql.bulkStoreResult table objects st)) := by
  have hinsert : table.pkFields = [] →
      Mysql.bulkStoreInTransaction table objects =
        BulkStatements.insert (Mysql.bulkInsertInTransaction table objects) := by
    intro hpk
    simp [Mysql.bulkStoreInTransaction, hpk]
  have hmerge : table.pkFields ≠ [] →
      Mysql.bulkStoreInTransaction table objects =
        BulkStatements.merge (objects.map (rowValues table.columns)) := by
    intro hpk
    have hlen : ¬table.pkFields.length = 0 := fun hc => hpk (List.length_eq_zero.mp hc)
    simp [Mysql.bulkStoreInTransaction, hlen]
  refine ⟨hinsert, hmerge, ?_, ?_⟩
  · intro hpk h1 h2
    unfold Mysql.bulkStoreResult
    rw [hinsert hpk]
    simp only [execBulkStatements]
    have hb : ∀ stmt ∈ Mysql.bulkInsertInTransaction table objects,
        0 < valuesCount stmt ∧ valuesCount stmt ≤ mysqlValuesLimit := by
      intro stmt hs
      have h3 := bulkInsertLoop_bounds table.columns h2 objects []
        (by intro t ht; simp at ht) (by simp [valuesCount]) stmt hs
      exact ⟨h3.1, h3.2.1⟩
    rw [execAll_insert_ok (Mysql.bulkInsertInTransaction table objects) hb st]
    rw [show (Mysql.bulkInsertInTransaction table objects).flatten =
        objects.map (rowValues table.columns) from by
      simpa using bulkInsertLoop_flatten table.columns h1 objects []
        (by intro t ht; simp at ht)]
  · intro hpk hinv
    unfold Mysql.bulkStoreResult
    rw [hmerge hpk]
    simp only [execBulkStatements]
    cases hrun : execAll (execMergeRow table.columns table.pkFields)
        (objects.map (rowValues table.columns)) st with
    | error e => exact hinv
    | ok s =>
      exact execAll_merge_inv table.columns table.pkFields
        (objects.map (rowValues table.columns)) st s hinv hrun

theorem C4_bulk_store_pk_dispatch_witness :
    atMostOnePerKey ["email", "name"] ["email"]
      (Mysql.bulkStoreResult ⟨"users", ["email", "name"], ["email"]⟩
        [[("email", "a@x"), ("name", "A")], [("email", "a@x"), ("name", "B")]] []) :=
  (C4_bulk_store_pk_dispatch ⟨"users", ["email", "name"], ["email"]⟩
      [[("email", "a@x"), ("name", "A")], [("email", "a@x"), ("name", "B")]] []).2.2.2
    (by decide) (by intro key; simp)

/-! ## Transactions (C6) -/

/-- Statement executed through the wrapped sql.Tx: the delete issued by
deleteInTransaction, or one statement issued by bulkStoreInTransaction
binding the given row tuples. -/
inductive TxStmt where
  | delete (conditions : List (String × String))
  | run (vals : List (List Val))
deriving DecidableEq

/-- Statement sequence a BulkStatements value executes inside the
transaction: each INSERT batch is one execution; the prepared merge
statement is executed once per row. -/
def txStatements : BulkStatements → List TxStmt
  | BulkStatements.insert stmts => stmts.map TxStmt.run
  | BulkStatements.merge rows => rows.map (fun r => TxStmt.run [r])

/-- Sequential execution of statements inside one open transaction,
stopping at the first error, exactly as the Go methods propagate the
first ExecContext error.  The executor oracle models the SQL engine and
driver; σ is the transaction-local (uncommitted) state. -/
def runStmtsTx {σ : Type} (exec : TxStmt → σ → Except String σ) :
    List TxStmt → σ → Except String σ
  | [], s => Except.ok s
  | stmt :: rest, s =>
    match exec stmt s with
    | Except.error e => Except.error e
    | Except.ok s2 => runStmtsTx exec rest s2

/-- Embedding of Mysql.BulkInsert: open a transaction, run
bulkStoreInTransaction, roll back on error and commit otherwise.  The
pair holds the Go return value and the committed table state visible
after the call; that rollback leaves the committed state unchanged is the
transactional semantics of the engine, modelled from the spec. -/
def Mysql.BulkInsert {σ : Type} (exec : TxStmt → σ → Except String σ)
    (table : MTable) (objects : List Obj) (committed : σ) : Except String Unit × σ :=
  match runStmtsTx exec (txStatements (Mysql.bulkStoreInTransaction table objects)) committed with
  | Except.error e => (Except.error e, committed)
  | Except.ok s2 => (Except.ok (), s2)

/-- Statement sequence executed by Mysql.BulkUpdate: the delete statement
when delete conditions are present, then the bulk store statements. -/
def bulkUpdateStatements (table : MTable) (objects : List Obj)
    (deleteConditions : List (String × String)) : List TxStmt :=
  (if deleteConditions.isEmpty then [] else [TxStmt.delete deleteConditions]) ++
    txStatements (Mysql.bulkStoreInTransaction table objects)

/-- Embedding of Mysql.BulkUpdate: like BulkInsert, but first issuing the
delete statement when delete conditions are present, all inside the same
transaction; any error rolls the whole transaction back. -/
def Mysql.BulkUpdate {σ : Type} (exec : TxStmt → σ → Except String σ)
    (table : MTable) (objects : List Obj) (deleteConditions : List (String × String))
    (committed : σ) : Except String Unit × σ :=
  match runStmtsTx exec (bulkUpdateStatements table objects deleteConditions) committed with
  | Except.error e => (Except.error e, committed)
  | Except.ok s2 => (Except.ok (), s2)

/-- Splitting a sequential transaction run at a list append. -/
theorem runStmtsTx_append {σ : Type} (exec : TxStmt → σ → Except String σ)
    (l1 l2 : List TxStmt) (s : σ) :
    runStmtsTx exec (l1 ++ l2) s =
      match runStmtsTx exec l1 s with
      | Except.error e => Except.error e
      | Except.ok s2 => runStmtsTx exec l2 s2 := by
  induction l1 generalizing s with
  | nil => simp [runStmtsTx]
  | cons stmt rest ih =>
    simp only [List.cons_append, runStmtsTx]
    cases exec stmt s with
    | error e => rfl
    | ok s2 => exact ih s2

/-- C6: BulkInsert and BulkUpdate run all their row statements inside a
single transaction: if any statement errors, the transaction is rolled
back, the committed table contents are unchanged and the first error is
returned; the transaction commits exactly when every statement succeeds,
and then the visible contents are the result of executing every statement
in sequence. -/
theorem C6_single_transaction {σ : Type} (exec : TxStmt → σ → Except String σ)
    (table : MTable) (objects : List Obj) (deleteConditions : List (String × String))
    (committed : σ) :
    (∀ e, (Mysql.BulkInsert exec table objects committed).1 = Except.error e →
      (Mysql.BulkInsert exec table objects committed).2 = committed) ∧
    (∀ e, (Mysql.BulkUpdate exec table objects deleteConditions committed).1 = Except.error e →
      (Mysql.BulkUpdate exec table objects deleteConditions committed).2 = committed) ∧
    (∀ l1 bad l2 s1 e,
      txStatements (Mysql.bulkStoreInTransaction table objects) = l1 ++ bad :: l2 →
      runStmtsTx exec l1 committed = Except.ok s1 →
      exec bad s1 = Except.error e →
      Mysql.BulkInsert exec table objects committed = (Except.error e, committed)) ∧
    (∀ l1 bad l2 s1 e,
      bulkUpdateStatements table objects deleteConditions = l1 ++ bad :: l2 →
      runStmtsTx exec l1 committed = Except.ok s1 →
      exec bad s1 = Except.error e →
      Mysql.BulkUpdate exec table objects deleteConditions committed =
        (Except.error e, committed)) ∧
    (∀ s2, runStmtsTx exec (txStatements (Mysql.bulkStoreInTransaction table objects))
        committed = Except.ok s2 →
      Mysql.BulkInsert exec table objects committed = (Except.ok (), s2)) ∧
    (∀ s2, runStmtsTx exec (bulkUpdateStatements table objects deleteConditions)
        committed = Except.ok s2 →
      Mysql.BulkUpdate exec table objects deleteConditions committed = (Except.ok (), s2)) := by
  refine ⟨?_, ?_, ?_, ?_, ?_, ?_⟩
  · intro e h
    unfold Mysql.BulkInsert at h ⊢
    cases hrun : runStmtsTx exec (txStatements (Mysql.bulkStoreInTransaction table objects))
        committed with
    | error e2 => simp [hrun]
    | ok s2 => simp [hrun] at h
  · intro e h
    unfold Mysql.BulkUpdate at h ⊢
    cases hrun : runStmtsTx exec (bulkUpdateStatements table objects deleteConditions)
        committed with
    | error e2 => simp [hrun]
    | ok s2 => simp [hrun] at h
  · intro l1 bad l2 s1 e hsplit hl1 hbad
    unfold Mysql.BulkInsert
    rw [hsplit, runStmtsTx_append, hl1]
    simp only [runStmtsTx, hbad]
  · intro l1 bad l2 s1 e hsplit hl1 hbad
    unfold Mysql.BulkUpdate
    rw [hsplit, runStmtsTx_append, hl1]
    simp only [runStmtsTx, hbad]
  · intro s2 h
    unfold Mysql.BulkInsert
    rw [h]
  · intro s2 h
    unfold Mysql.BulkUpdate
    rw [h]

theorem C6_single_transaction_witness :
    Mysql.BulkInsert (fun _ n => Except.ok (n + 1)) ⟨"t", ["a"], []⟩
      [[("a", "1")], [("a", "2")]] (0 : Nat) = (Except.ok (), 1) :=
  (C6_single_transaction (fun _ n => Except.ok (n + 1)) ⟨"t", ["a"], []⟩
    [[("a", "1")], [("a", "2")]] [] 0).2.2.2.2.1 1 rfl

/-! ## Postgres storage: streaming insert with one retry (C8) -/

/-- Embedding of Postgres.Insert.  The table helper and adapter are
abstracted by the outcomes of the five calls the method can make, in
program order: the first EnsureTable, the first adapter Insert,
RefreshTableSchema, the second EnsureTable and the second adapter
Insert.  The second component counts the adapter Insert calls actually
performed. -/
def Postgres.Insert (ensure1 : Except String MTable) (insert1 : Except String Unit)
    (refresh : Except String MTable) (ensure2 : Except String MTable)
    (insert2 : Except String Unit) : Except String Unit × Nat :=
  match ensure1 with
  | Except.error e => (Except.error e, 0)
  | Except.ok _ =>
    match insert1 with
    | Except.ok _ => (Except.ok (), 1)
    | Except.error _ =>
      match refresh with
      | Except.error e => (Except.error e, 1)
      | Except.ok _ =>
        match ensure2 with
        | Except.error e => (Except.error e, 1)
        | Except.ok _ => (insert2, 2)

/-- C8: after ensuring the table, the adapter insert is attempted at most
twice.  A successful first insert returns immediately; on first failure
the schema is refreshed from the live sink and the table re-ensured, and
exactly one retry is performed, whose result is returned; an error from
refresh or re-ensure is returned without a retry. -/
theorem C8_insert_single_retry (ensure1 : Except String MTable)
    (insert1 : Except String Unit) (refresh : Except String MTable)
    (ensure2 : Except String MTable) (insert2 : Except String Unit) :
    (Postgres.Insert ensure1 insert1 refresh ensure2 insert2).2 ≤ 2 ∧
    (∀ e, ensure1 = Except.error e →
      Postgres.Insert ensure1 insert1 refresh ensure2 insert2 = (Except.error e, 0)) ∧
    (∀ t, ensure1 = Except.ok t → insert1 = Except.ok () →
      Postgres.Insert ensure1 insert1 refresh ensure2 insert2 = (Except.ok (), 1)) ∧
    (∀ t e e2, ensure1 = Except.ok t → insert1 = Except.error e →
      refresh = Except.error e2 →
      Postgres.Insert ensure1 insert1 refresh ensure2 insert2 = (Except.error e2, 1)) ∧
    (∀ t e t2 e2, ensure1 = Except.ok t → insert1 = Except.error e →
      refresh = Except.ok t2 → ensure2 = Except.error e2 →
      Postgres.Insert ensure1 insert1 refresh ensure2 insert2 = (Except.error e2, 1)) ∧
    (∀ t e t2 t3, ensure1 = Except.ok t → insert1 = Except.error e →
      refresh = Except.ok t2 → ensure2 = Except.ok t3 →
      Postgres.Insert ensure1 insert1 refresh ensure2 insert2 = (insert2, 2)) := by
  refine ⟨?_, ?_, ?_, ?_, ?_, ?_⟩
  · cases ensure1 with
    | error e => simp [Postgres.Insert]
    | ok t =>
      cases insert1 with
      | ok u => simp [Postgres.Insert]
      | error e =>
        cases refresh with
        | error e2 => simp [Postgres.Insert]
        | ok t2 =>
          cases ensure2 with
          | error e2 => simp [Postgres.Insert]
          | ok t3 => simp [Postgres.Insert]
  · intro e h
    subst h
    rfl
  · intro t h1 h2
    subst h1
    subst h2
    rfl
  · intro t e e2 h1 h2 h3
    subst h1
    subst h2
    subst h3
    rfl
  · intro t e t2 e2 h1 h2 h3 h4
    subst h1
    subst h2
    subst h3
    subst h4
    rfl
  · intro t e t2 t3 h1 h2 h3 h4
    subst h1
    subst h2
    subst h3
    subst h4
    rfl

theorem C8_insert_single_retry_witness :
    Postgres.Insert (Except.ok ⟨"events", ["a"], []⟩) (Except.error "column does not exist")
      (Except.ok ⟨"events", ["a", "b"], []⟩) (Except.ok ⟨"events", ["a", "b"], []⟩)
      (Except.ok ()) = (Except.ok (), 2) :=
  (C8_insert_single_retry (Except.ok ⟨"events", ["a"], []⟩) (Except.error "column does not exist")
    (Except.ok ⟨"events", ["a", "b"], []⟩) (Except.ok ⟨"events", ["a", "b"], []⟩)
    (Except.ok ())).2.2.2.2.2 ⟨"events", ["a"], []⟩ "column does not exist"
    ⟨"events", ["a", "b"], []⟩ ⟨"events", ["a", "b"], []⟩ rfl rfl rfl rfl

/-! ## Postgres storage: batch file store (C10) -/

/-- Failed event routed to the fallback surface
(events.FailedEvent{Event, Error, EventID}). -/
structure FailedEvent where
  event : String
  error : String
  eventID : String
deriving DecidableEq

/-- Per-table flattened group produced by the processor for a file payload
(schema.ProcessedFile): derived table name and the rows, each carrying its
extracted event id. -/
structure FData where
  tableName : String
  payload : List (String × Obj)
deriving DecidableEq

/-- One iteration of the table loop of Postgres.StoreWithParseFunc: store
the group (storeTable is the oracle for storeTable = EnsureTable +
BulkInsert), record the per-table result, clear the storeFailedEvents
flag on error, and append the per-row events-cache outcomes. -/
def storeTableStep (storeTable : String → Option String)
    (acc : List (String × Option String × Nat) × Bool × List (String × Option String))
    (fdata : FData) :
    List (String × Option String × Nat) × Bool × List (String × Option String) :=
  let err := storeTable fdata.tableName
  (acc.1 ++ [(fdata.tableName, err, fdata.payload.length)],
    if err.isSome then false else acc.2.1,
    acc.2.2 ++ fdata.payload.map (fun p => (p.1, err)))

/-- Observable effects of one Postgres.StoreWithParseFunc call: the Go
return value (per-table results as (table, error, rows count), or the
processor error), the failed-events count, the events-cache writes in
order ((event id, some error) or (event id, none) for success), and the
FailedEvents handed to the fallback logger. -/
structure StoreFileEffects where
  result : Except String (List (String × Option String × Nat))
  failedEventsCount : Nat
  cacheEntries : List (String × Option String)
  fallbackWritten : List FailedEvent

/-- Embedding of Postgres.StoreWithParseFunc.  The processor call is
abstracted by its outcome (the per-table groups and the per-row failed
events, or an error); payloadLines is linesCount(payload), returned as
the failed count when the processor itself errors. -/
def Postgres.StoreWithParseFunc (payloadLines : Nat)
    (processorResult : Except String (List FData × List FailedEvent))
    (storeTable : String → Option String) : StoreFileEffects :=
  match processorResult with
  | Except.error e =>
    { result := Except.error e, failedEventsCount := payloadLines,
      cacheEntries := [], fallbackWritten := [] }
  | Except.ok (flatData, failedEvents) =>
    let failedCache := failedEvents.map (fun fe => (fe.eventID, some fe.error))
    let looped := flatData.foldl (storeTableStep storeTable) ([], true, [])
    { result := Except.ok looped.1,
      failedEventsCount := failedEvents.length,
      cacheEntries := failedCache ++ looped.2.2,
      fallbackWritten := if looped.2.1 then failedEvents else [] }

/-- Characterization of the table loop of StoreWithParseFunc. -/
theorem storeTableStep_foldl (storeTable : String → Option String) (groups : List FData) :
    ∀ (acc : List (String × Option String × Nat)) (flag : Bool)
      (cache : List (String × Option String)),
      groups.foldl (storeTableStep storeTable) (acc, flag, cache) =
        (acc ++ groups.map (fun g => (g.tableName, storeTable g.tableName, g.payload.length)),
         flag && groups.all (fun g => (storeTable g.tableName).isNone),
         cache ++ (groups.map (fun g =>
           g.payload.map (fun p => (p.1, storeTable g.tableName)))).flatten) := by
  induction groups with
  | nil => intro acc flag cache; simp
  | cons g rest ih =>
    intro acc flag cache
    simp only [List.foldl_cons, storeTableStep]
    rw [ih]
    cases herr : storeTable g.tableName with
    | none => simp [herr]
    | some e => simp [herr]

/-- C10: the per-row FailedEvents from the processor are written to the
fallback logger only when every table group stored successfully; if any
table errors they are not persisted to fallback, though every failed
event's error is still recorded in the events cache, and the per-table
results report each table's error and row count. -/
theorem C10_failed_events_gated_by_store (payloadLines : Nat) (groups : List FData)
    (failed : List FailedEvent) (storeTable : String → Option String) :
    (Postgres.StoreWithParseFunc payloadLines (Except.ok (groups, failed))
        storeTable).fallbackWritten =
      (if groups.all (fun g => (storeTable g.tableName).isNone) then failed else []) ∧
    (∀ fe ∈ failed, (fe.eventID, some fe.error) ∈
      (Postgres.StoreWithParseFunc payloadLines (Except.ok (groups, failed))
        storeTable).cacheEntries) ∧
    (Postgres.StoreWithParseFunc payloadLines (Except.ok (groups, failed))
        storeTable).result =
      Except.ok (groups.map (fun g =>
        (g.tableName, storeTable g.tableName, g.payload.length))) := by
  refine ⟨?_, ?_, ?_⟩
  · simp [Postgres.StoreWithParseFunc, storeTableStep_foldl]
  · intro fe hfe
    simp only [Postgres.StoreWithParseFunc, List.mem_append, List.mem_map]
    exact Or.inl ⟨fe, hfe, rfl⟩
  · simp [Postgres.StoreWithParseFunc, storeTableStep_foldl]

theorem C10_failed_events_gated_by_store_witness :
    (Postgres.StoreWithParseFunc 0
        (Except.ok ([⟨"users", [("id1", [])]⟩], [⟨"\x7b\x7d", "boom", "id9"⟩]))
        (fun _ => some "store failed")).fallbackWritten = [] ∧
    (Postgres.StoreWithParseFunc 0
        (Except.ok ([⟨"users", [("id1", [])]⟩], [⟨"\x7b\x7d", "boom", "id9"⟩]))
        (fun _ => some "store failed")).cacheEntries =
      [("id9", some "boom"), ("id1", some "store failed")] := by
  have h := C10_failed_events_gated_by_store 0 [⟨"users", [("id1", [])]⟩]
    [⟨"\x7b\x7d", "boom", "id9"⟩] (fun _ => some "store failed")
  refine ⟨?_, ?_⟩
  · rw [h.1]
    decide
  · decide

/-! ## Streaming worker (C1, C9) -/

/-- Event as the worker sees it: its Serialize() form and the id
events.ExtractEventID extracts. -/
structure GoEvent where
  serialized : String
  eventID : String
deriving DecidableEq

/-- Outcome of processor.ProcessEvent: the ErrSkipObject error, another
processing error with its text, or the derived batch header (the worker
only inspects its field count, via BatchHeader.Exists) together with the
flattened object. -/
inductive ProcessOutcome where
  | skip
  | fail (msg : String)
  | ok (headerFields : Nat) (flattenObject : GoEvent)
deriving DecidableEq

/-- Outcome of eventQueue.DequeueBlock: an error (tagged with whether it
is events.ErrQueueClosed), or the dequeued (event, notBefore time,
token id). -/
inductive DequeueOutcome where
  | fail (isQueueClosed : Bool)
  | ok (fact : GoEvent) (dequeuedTime : Nat) (tokenID : String)
deriving DecidableEq

/-- Observable effects of one iteration of the StreamingWorker.start
loop. -/
structure IterEffects where
  exited : Bool
  dequeued : Bool
  requeued : Option (GoEvent × Nat × String)
  skippedInc : Nat
  errorInc : Nat
  successInc : Nat
  fallbackEvent : Option FailedEvent
  cacheError : Option (String × String)
  cacheSuccess : Option String
  insertSucceeded : Bool
  archived : Option (GoEvent × String)
deriving DecidableEq

/-- Iteration with no observable effects, still looping. -/
def noEffects : IterEffects :=
  { exited := false
    dequeued := false
    requeued := none
    skippedInc := 0
    errorInc := 0
    successInc := 0
    fallbackEvent := none
    cacheError := none
    cacheSuccess := none
    insertSucceeded := false
    archived := none }

/-- Effects of an iteration that breaks out of the loop: nothing is
dequeued and nothing else happens. -/
def exitEffects : IterEffects :=
  { noEffects with exited := true }

/-- Embedding of Go strings.Contains. -/
def goContains (s substr : String) : Bool :=
  decide (substr.data <:+: s.data)

/-- Modelled from the spec: the error text of schema.ErrSkipObject, whose
definition lies outside the included sources; only its identity matters
to the worker. -/
def errSkipObjectText : String := "ErrSkipObject"

/-- The transient substrings exactly as the code tests them: the chain of
strings.Contains calls on the insert error text in
StreamingWorker.start. -/
def transientErrorSubstrings : List String :=
  ["connection refused", "EOF", "write: broken pipe", "context deadline exceeded",
    "connection reset by peer"]

/-- Embedding of the transient-error test of StreamingWorker.start. -/
def isTransientInsertError (errText : String) : Bool :=
  goContains errText "connection refused" || goContains errText "EOF" ||
    goContains errText "write: broken pipe" ||
    goContains errText "context deadline exceeded" ||
    goContains errText "connection reset by peer"

/-- The transient substring set exactly as the claim and the spec word it
(for comparison against the code's substrings). -/
def claimedTransientSubstrings : List String :=
  ["connection refused", "EOF", "broken pipe", "deadline exceeded", "connection reset"]

/-- Embedding of one iteration of the StreamingWorker.start loop.  The
storage, processor, queue and clock are abstracted by oracles: `staged`
is streamingStorage.IsStaging(), `dequeue` the DequeueBlock outcome,
`now` the current time in seconds, `process` the ProcessEvent outcome per
event and `insert` the error text of streamingStorage.Insert on the
flattened object (none on success).  Since the loop body keeps no state
between iterations, the whole goroutine is this iteration repeated until
`exited`. -/
def StreamingWorker.iteration (staged closed : Bool) (dequeue : DequeueOutcome)
    (now : Nat) (process : GoEvent → ProcessOutcome)
    (insert : GoEvent → Option String) : IterEffects :=
  if staged then exitEffects
  else if closed then exitEffects
  else
    match dequeue with
    | DequeueOutcome.fail _ => noEffects
    | DequeueOutcome.ok fact dequeuedTime tokenID =>
      if now < dequeuedTime then
        { noEffects with dequeued := true, requeued := some (fact, dequeuedTime, tokenID) }
      else
        match process fact with
        | ProcessOutcome.skip =>
          { noEffects with
            dequeued := true
            skippedInc := 1
            cacheError := some (fact.eventID, errSkipObjectText) }
        | ProcessOutcome.fail msg =>
          { noEffects with
            dequeued := true
            errorInc := 1
            fallbackEvent := some ⟨fact.serialized, msg, fact.eventID⟩
            cacheError := some (fact.eventID, msg) }
        | ProcessOutcome.ok headerFields flattenObject =>
          if headerFields = 0 then
            { noEffects with dequeued := true }
          else
            match insert flattenObject with
            | some errText =>
              if isTransientInsertError errText then
                { noEffects with
                  dequeued := true
                  requeued := some (fact, now + 20, tokenID)
                  errorInc := 1
                  cacheError := some (fact.eventID, errText) }
              else
                { noEffects with
                  dequeued := true
                  errorInc := 1
                  fallbackEvent := some ⟨fact.serialized, errText, flattenObject.eventID⟩
                  cacheError := some (fact.eventID, errText) }
            | none =>
              { noEffects with
                dequeued := true
                successInc := 1
                cacheSuccess := some fact.eventID
                insertSucceeded := true
                archived := some (fact, tokenID) }

/-- The executable substring test agrees with membership of a substring of
the code's transient list in the error text. -/
theorem isTransientInsertError_iff (errText : String) :
    isTransientInsertError errText = true ↔
      ∃ sub ∈ transientErrorSubstrings, sub.data <:+: errText.data := by
  simp [isTransientInsertError, goContains, transientErrorSubstrings, or_assoc]

/-- C1 counterexample.  The error text "broken pipe" matches the claim's
transient set (it contains the listed phrase "broken pipe"), so per the
claim the event must be re-enqueued with notBefore = now + 20 s; the code
however tests for the longer substring "write: broken pipe", does not
match, and routes the event to fallback instead of the queue. -/
theorem C1_counterexample :
    (∃ sub ∈ claimedTransientSubstrings, sub.data <:+: ("broken pipe").data) ∧
    (StreamingWorker.iteration false false
        (DequeueOutcome.ok ⟨"serialized-event", "id1"⟩ 0 "tok") 5
        (fun _ => ProcessOutcome.ok 1 ⟨"flat-object", "id1"⟩)
        (fun _ => some "broken pipe")).requeued = none ∧
    (StreamingWorker.iteration false false
        (DequeueOutcome.ok ⟨"serialized-event", "id1"⟩ 0 "tok") 5
        (fun _ => ProcessOutcome.ok 1 ⟨"flat-object", "id1"⟩)
        (fun _ => some "broken pipe")).fallbackEvent =
      some ⟨"serialized-event", "broken pipe", "id1"⟩ := by
  refine ⟨⟨"broken pipe", by decide, by decide⟩, ?_, ?_⟩ <;>
    simp [StreamingWorker.iteration, isTransientInsertError, goContains,
      noEffects, exitEffects] <;> decide

/-- C1 (amended): when the streaming worker's adapter insert fails, the
error text is tested against the code's transient substrings
{connection refused, EOF, write: broken pipe, context deadline exceeded,
connection reset by peer}: a match re-enqueues the event with
notBefore = now + 20 seconds, any other error emits a FailedEvent with
the serialized event, the error string and the flattened object's event
id to the fallback logger; in both cases the error counter is bumped by
one and the events cache records the error under the event's id. -/
theorem C1_insert_error_routing (fact flattenObject : GoEvent)
    (dequeuedTime now : Nat) (tokenID : String) (headerFields : Nat)
    (process : GoEvent → ProcessOutcome) (insert : GoEvent → Option String)
    (errText : String)
    (htime : ¬now < dequeuedTime)
    (hprocess : process fact = ProcessOutcome.ok headerFields flattenObject)
    (hheader : headerFields ≠ 0)
    (hinsert : insert flattenObject = some errText) :
    StreamingWorker.iteration false false
        (DequeueOutcome.ok fact dequeuedTime tokenID) now process insert =
      (if ∃ sub ∈ transientErrorSubstrings, sub.data <:+: errText.data then
        { noEffects with
          dequeued := true
          requeued := some (fact, now + 20, tokenID)
          errorInc := 1
          cacheError := some (fact.eventID, errText) }
      else
        { noEffects with
          dequeued := true
          errorInc := 1
          fallbackEvent := some ⟨fact.serialized, errText, flattenObject.eventID⟩
          cacheError := some (fact.eventID, errText) }) := by
  by_cases hx : ∃ sub ∈ transientErrorSubstrings, sub.data <:+: errText.data
  · rw [if_pos hx]
    have ht : isTransientInsertError errText = true := (isTransientInsertError_iff errText).mpr hx
    simp [StreamingWorker.iteration, htime, hprocess, hheader, hinsert, ht]
  · rw [if_neg hx]
    have ht : isTransientInsertError errText = false := by
      rcases h2 : isTransientInsertError errText with _ | _
      · rfl
      · exact absurd ((isTransientInsertError_iff errText).mp h2) hx
    simp [StreamingWorker.iteration, htime, hprocess, hheader, hinsert, ht]

theorem C1_insert_error_routing_witness :
    StreamingWorker.iteration false false
        (DequeueOutcome.ok ⟨"se", "id1"⟩ 3 "tok") 7
        (fun _ => ProcessOutcome.ok 2 ⟨"fo", "id2"⟩) (fun _ => some "syntax error") =
      { noEffects with
        dequeued := true
        errorInc := 1
        fallbackEvent := some ⟨"se", "syntax error", "id2"⟩
        cacheError := some ("id1", "syntax error") } := by
  rw [C1_insert_error_routing ⟨"se", "id1"⟩ ⟨"fo", "id2"⟩ 3 7 "tok" 2
    (fun _ => ProcessOutcome.ok 2 ⟨"fo", "id2"⟩) (fun _ => some "syntax error") "syntax error"
    (by omega) rfl (by decide) rfl]
  rw [if_neg (by decide)]

/-! ## Fallback replay (C5, C9) -/

/-- Result of one storage.StoreWithParseFunc call as Replay consumes it:
the top-level error (processor failure), the failed-rows count and the
per-table (name, error, rows count) results. -/
structure StoreOutcome where
  topError : Option String
  errRowsCount : Nat
  resultPerTable : List (String × Option String × Nat)

/-- Storage as Replay sees it through the destination service: its
Name(), the staged flag (IsStaging) and the StoreWithParseFunc behaviour
as a function of the already-uploaded table list. -/
structure MStorage where
  name : String
  staged : Bool
  store : List String → StoreOutcome

/-- Observable effects of one fallback Service.Replay call: the returned
error or success, the skip list passed to StoreWithParseFunc (none when
the store was never reached), the per-table status-manager updates, and
whether the file was archived and its statuses cleaned up. -/
structure ReplayEffects where
  result : Except String Unit
  storeCalled : Option (List String)
  statusUpdates : List (String × Option String)
  archived : Bool
  cleanedUp : Bool

/-- Replay outcome for the early error paths: nothing stored, nothing
archived. -/
def replayError (e : String) : ReplayEffects :=
  { result := Except.error e
    storeCalled := none
    statusUpdates := []
    archived := false
    cleanedUp := false }

/-- Embedding of fallback Service.Replay.  The file system, lock map,
destination service and status manager are oracles: locksHeld holds the
file names whose LoadOrStore finds the lock taken, readResult the file
read outcome, extractedDest the destination-id regex result on the file
name, lookup the destination service composed with the proxy Get,
tableStatuses the status manager's (table, uploaded) entries for
(fileName, storage name), archiveOk whether ArchiveByPath succeeds.
Error texts abbreviate the fmt.Errorf wrapping; absolute-path splitting
is outside the model. -/
def Service.Replay (fileName destinationID : String) (locksHeld : List String)
    (readResult : Option String) (extractedDest : Option String)
    (lookup : String → Option MStorage) (tableStatuses : List (String × Bool))
    (archiveOk : Bool) : ReplayEffects :=
  if fileName = "" then replayError "File name can't be empty"
  else if fileName ∈ locksHeld then
    replayError ("File [" ++ fileName ++ "] is being processed")
  else
    match readResult with
    | none => replayError ("Error reading fallback file [" ++ fileName ++ "]")
    | some _ =>
      match (if destinationID = "" then extractedDest else some destinationID) with
      | none =>
        replayError ("Error processing fallback file " ++ fileName ++ ": Malformed name")
      | some destID =>
        match lookup destID with
        | none => replayError ("Destination [" ++ destID ++ "] wasn't found")
        | some storage =>
          if storage.staged then
            replayError ("Error running fallback for destination [" ++ destID ++
              "] in staged mode, cannot be used to store data (only available for dry-run)")
          else
            let alreadyUploadedTables :=
              (tableStatuses.filter (fun p => p.2)).map (fun p => p.1)
            let out := storage.store alreadyUploadedTables
            match out.topError with
            | some e =>
              { result := Except.error ("Error storing fallback file " ++ fileName ++
                  " in destination: " ++ e)
                storeCalled := some alreadyUploadedTables
                statusUpdates := []
                archived := false
                cleanedUp := false }
            | none =>
              if out.resultPerTable.any (fun r => r.2.1.isSome) then
                { result := Except.error "multierror: storing some tables failed"
                  storeCalled := some alreadyUploadedTables
                  statusUpdates := out.resultPerTable.map (fun r => (r.1, r.2.1))
                  archived := false
                  cleanedUp := false }
              else
                { result := Except.ok ()
                  storeCalled := some alreadyUploadedTables
                  statusUpdates := out.resultPerTable.map (fun r => (r.1, r.2.1))
                  archived := archiveOk
                  cleanedUp := archiveOk }

/-- Modelled from the spec: schema ProcessFilePayload receives the set of
already-uploaded table names as a skip list for crash recovery and
excludes those groups from its output (the processor itself is outside
the included sources). -/
def ProcessFilePayload (groups : List FData) (alreadyUploadedTables : List String) :
    List FData :=
  groups.filter (fun g => !(alreadyUploadedTables.contains g.tableName))

/-- C5: Replay takes a per-file lock, so a concurrent replay of the same
file returns an error without storing; the skip list passed to
StoreWithParseFunc is exactly the tables the status manager marks
uploaded for the file and destination, and the (spec-modelled) processor
drops those tables, so they are not stored again; statuses are cleaned
only after a successful archive, the file is archived only when every
table stored without error, and a partial failure returns a multi-error
with the file left in place while the per-table statuses are still
updated. -/
theorem C5_replay_table_idempotence (fileName destinationID : String)
    (locksHeld : List String) (readResult : Option String) (extractedDest : Option String)
    (lookup : String → Option MStorage) (tableStatuses : List (String × Bool))
    (archiveOk : Bool) :
    (fileName ∈ locksHeld → fileName ≠ "" →
      (Service.Replay fileName destinationID locksHeld readResult extractedDest lookup
          tableStatuses archiveOk).result.isOk = false ∧
      (Service.Replay fileName destinationID locksHeld readResult extractedDest lookup
          tableStatuses archiveOk).storeCalled = none) ∧
    (∀ l, (Service.Replay fileName destinationID locksHeld readResult extractedDest lookup
        tableStatuses archiveOk).storeCalled = some l →
      l = (tableStatuses.filter (fun p => p.2)).map (fun p => p.1)) ∧
    (∀ (payloadLines : Nat) (groups : List FData) (failed : List FailedEvent)
        (storeTable : String → Option String) (skip : List String)
        (tname : String) (err : Option String) (rc : Nat)
        (res : List (String × Option String × Nat)),
      (Postgres.StoreWithParseFunc payloadLines
          (Except.ok (ProcessFilePayload groups skip, failed)) storeTable).result =
        Except.ok res →
      (tname, err, rc) ∈ res → skip.contains tname = false) ∧
    ((Service.Replay fileName destinationID locksHeld readResult extractedDest lookup
        tableStatuses archiveOk).cleanedUp = true →
      (Service.Replay fileName destinationID locksHeld readResult extractedDest lookup
          tableStatuses archiveOk).archived = true) ∧
    ((Service.Replay fileName destinationID locksHeld readResult extractedDest lookup
        tableStatuses archiveOk).archived = true →
      (Service.Replay fileName destinationID locksHeld readResult extractedDest lookup
          tableStatuses archiveOk).result = Except.ok () ∧
      (Service.Replay fileName destinationID locksHeld readResult extractedDest lookup
          tableStatuses archiveOk).statusUpdates.all (fun p => p.2.isNone) = true) ∧
    (∀ storage, destinationID ≠ "" → lookup destinationID = some storage →
      storage.staged = false → fileName ≠ "" → fileName ∉ locksHeld →
      ∀ s, readResult = some s →
      (storage.store ((tableStatuses.filter (fun p => p.2)).map (fun p => p.1))).topError =
        none →
      (storage.store ((tableStatuses.filter (fun p => p.2)).map
          (fun p => p.1))).resultPerTable.any (fun r => r.2.1.isSome) = true →
      (Service.Replay fileName destinationID locksHeld readResult extractedDest lookup
          tableStatuses archiveOk).result.isOk = false ∧
      (Service.Replay fileName destinationID locksHeld readResult extractedDest lookup
          tableStatuses archiveOk).archived = false ∧
      (Service.Replay fileName destinationID locksHeld readResult extractedDest lookup
          tableStatuses archiveOk).statusUpdates =
        (storage.store ((tableStatuses.filter (fun p => p.2)).map
          (fun p => p.1))).resultPerTable.map (fun r => (r.1, r.2.1))) := by
  refine ⟨?_, ?_, ?_, ?_, ?_, ?_⟩
  · intro hmem hne
    unfold Service.Replay
    rw [if_neg hne, if_pos hmem]
    exact ⟨rfl, rfl⟩
  · intro l
    unfold Service.Replay replayError
    repeat' split
    all_goals simp
    all_goals (rcases (MStorage.store _ _).topError with _ | e2 <;> simp)
    all_goals try (split <;> simp)
    all_goals (intro h2; exact h2.symm)
  · intro payloadLines groups failed storeTable skip tname err rc res hres hmem
    simp only [Postgres.StoreWithParseFunc, storeTableStep_foldl, List.nil_append,
      Except.ok.injEq] at hres
    subst hres
    simp only [List.mem_map, ProcessFilePayload, List.mem_filter] at hmem
    rcases hmem with ⟨g, ⟨hg, hnc⟩, heq⟩
    have : g.tableName = tname := by
      exact congrArg (fun t => t.1) heq
    rw [← this]
    simpa using hnc
  · unfold Service.Replay replayError
    repeat' split
    all_goals simp
    all_goals (rcases (MStorage.store _ _).topError with _ | e2 <;> simp)
    all_goals (split <;> simp)
  · unfold Service.Replay replayError
    repeat' split
    all_goals simp
    all_goals (rcases (MStorage.store _ _).topError with _ | e2 <;> simp)
    all_goals (split <;> simp)
    all_goals (
      rename_i hany2
      intro h3 a b x hmem2
      rcases b with _ | v
      · rfl
      · exact absurd (List.any_eq_true.mpr ⟨(a, some v, x), hmem2, by simp⟩) hany2)
  · intro storage hne hlookup hstaged hfn hnlock s hread htop hany
    simp [Service.Replay, hfn, hnlock, hread, hne, hlookup, hstaged, htop, hany, Except.isOk,
      Except.toBool]

theorem C5_replay_table_idempotence_witness :
    (Service.Replay "f.log" "d1" ["f.log"] none none (fun _ => none) [] true).result.isOk =
      false ∧
    (Service.Replay "f.log" "d1" ["f.log"] none none (fun _ => none) [] true).storeCalled =
      none :=
  (C5_replay_table_idempotence "f.log" "d1" ["f.log"] none none (fun _ => none) [] true).1
    (by decide) (by decide)

/-- C9: a staged destination never receives writes.  The streaming worker
loop re-checks IsStaging at the top of every iteration and breaks before
DequeueBlock, so (the loop body holding no cross-iteration state) no
event is ever dequeued, inserted or otherwise acted on; and fallback
Replay refuses a staged destination with an error before calling
StoreWithParseFunc, so the sink state is untouched. -/
theorem C9_staged_destination_no_writes :
    (∀ (closed : Bool) (dequeue : DequeueOutcome) (now : Nat)
        (process : GoEvent → ProcessOutcome) (insert : GoEvent → Option String),
      StreamingWorker.iteration true closed dequeue now process insert = exitEffects) ∧
    (∀ (fileName destinationID : String) (locksHeld : List String)
        (readResult : Option String) (extractedDest : Option String)
        (lookup : String → Option MStorage) (tableStatuses : List (String × Bool))
        (archiveOk : Bool) (storage : MStorage),
      destinationID ≠ "" → lookup destinationID = some storage → storage.staged = true →
      (Service.Replay fileName destinationID locksHeld readResult extractedDest lookup
          tableStatuses archiveOk).result.isOk = false ∧
      (Service.Replay fileName destinationID locksHeld readResult extractedDest lookup
          tableStatuses archiveOk).storeCalled = none) := by
  constructor
  · intro closed dequeue now process insert
    simp [StreamingWorker.iteration]
  · intro fileName destinationID locksHeld readResult extractedDest lookup tableStatuses
      archiveOk storage hne hlookup hstaged
    by_cases hfn : fileName = ""
    · simp [Service.Replay, hfn, Except.isOk, Except.toBool, replayError]
    by_cases hlock : fileName ∈ locksHeld
    · simp [Service.Replay, hfn, hlock, Except.isOk, Except.toBool, replayError]
    rcases readResult with _ | s
    · simp [Service.Replay, hfn, hlock, Except.isOk, Except.toBool, replayError]
    · simp [Service.Replay, hfn, hlock, hne, hlookup, hstaged, Except.isOk, Except.toBool,
        replayError]

theorem C9_staged_destination_no_writes_witness :
    StreamingWorker.iteration true false
        (DequeueOutcome.ok ⟨"e", "id"⟩ 0 "tok") 0 (fun _ => ProcessOutcome.skip)
        (fun _ => none) = exitEffects ∧
    (Service.Replay "f.log" "d1" [] (some "data") none
        (fun _ => some ⟨"d1", true, fun _ => ⟨none, 0, []⟩⟩) [] true).result.isOk = false ∧
    (Service.Replay "f.log" "d1" [] (some "data") none
        (fun _ => some ⟨"d1", true, fun _ => ⟨none, 0, []⟩⟩) [] true).storeCalled = none :=
  ⟨C9_staged_destination_no_writes.1 false (DequeueOutcome.ok ⟨"e", "id"⟩ 0 "tok") 0
      (fun _ => ProcessOutcome.skip) (fun _ => none),
    C9_staged_destination_no_writes.2 "f.log" "d1" [] (some "data") none
      (fun _ => some ⟨"d1", true, fun _ => ⟨none, 0, []⟩⟩) [] true
      ⟨"d1", true, fun _ => ⟨none, 0, []⟩⟩ (by decide) rfl rfl⟩

/-! ## BigQuery batch worker (C2) -/

/-- Effects of one tick of BigQuery.startBatch over the staged files in
google cloud storage: the files still present after the tick, the files
loaded into BigQuery via Copy (in order) and the success/error row
counters. -/
structure BatchTickEffects where
  remaining : List String
  copied : List String
  successRows : Nat
  errorRows : Nat
deriving DecidableEq

/-- Embedding of the per-tick file loop of BigQuery.startBatch: for each
listed file, extractDataFromFileName (oracle parse; a malformed name
skips the file, leaving it in place), then bqAdapter.Copy (oracle copyOk;
on failure the error counter grows by the file's row count and the file
stays for the next tick), then gcsAdapter.DeleteObject (oracle deleteOk;
on failure the file stays and, as the code's own log message says, will
be inserted in the database again).  No status manager is consulted
anywhere in this worker. -/
def BigQuery.startBatchTick (parse : String → Option (String × String × Nat))
    (copyOk deleteOk : String → Bool) : List String → BatchTickEffects
  | [] => ⟨[], [], 0, 0⟩
  | f :: rest =>
    let e := BigQuery.startBatchTick parse copyOk deleteOk rest
    match parse f with
    | none => ⟨f :: e.remaining, e.copied, e.successRows, e.errorRows⟩
    | some (_, _, rows) =>
      if copyOk f then
        if deleteOk f then
          ⟨e.remaining, f :: e.copied, rows + e.successRows, e.errorRows⟩
        else
          ⟨f :: e.remaining, f :: e.copied, rows + e.successRows, e.errorRows⟩
      else
        ⟨f :: e.remaining, e.copied, e.successRows, rows + e.errorRows⟩

/-- Row count encoded in a staged file's name (0 when malformed). -/
def fileRows (parse : String → Option (String × String × Nat)) (f : String) : Nat :=
  match parse f with
  | none => 0
  | some (_, _, rows) => rows

/-- C2 counterexample.  A well-formed 5-row staged file whose load
succeeds but whose delete fails (the situation after a crash between
load and delete) is loaded again on the next tick: both ticks Copy the
same file and count its 5 rows as successes, so the same rows are
inserted twice.  The claim's status-manager read that would skip the
already-uploaded (file, table) pair does not exist in this worker. -/
theorem C2_counterexample :
    BigQuery.startBatchTick (fun _ => some ("users", "tok", 5)) (fun _ => true)
        (fun _ => false) ["file1"] =
      ⟨["file1"], ["file1"], 5, 0⟩ ∧
    BigQuery.startBatchTick (fun _ => some ("users", "tok", 5)) (fun _ => true)
        (fun _ => false)
        (BigQuery.startBatchTick (fun _ => some ("users", "tok", 5)) (fun _ => true)
          (fun _ => false) ["file1"]).remaining =
      ⟨["file1"], ["file1"], 5, 0⟩ := by
  constructor <;> rfl

/-- C2 (amended): the BigQuery batch worker consults no status manager.
Each tick it loads every staged file whose name parses and whose Copy
succeeds, counts its rows as successes, and removes the file only when
the subsequent delete succeeds; every file whose parse, load or delete
failed is still listed next tick, so a file whose delete failed (for
example after a crash between load and delete) is loaded again,
inserting the same rows twice.  Deduplication relies solely on deleting
the staged object. -/
theorem C2_batch_tick_characterization (parse : String → Option (String × String × Nat))
    (copyOk deleteOk : String → Bool) (files : List String) :
    (BigQuery.startBatchTick parse copyOk deleteOk files).copied =
      files.filter (fun f => (parse f).isSome && copyOk f) ∧
    (BigQuery.startBatchTick parse copyOk deleteOk files).remaining =
      files.filter (fun f => !((parse f).isSome && copyOk f && deleteOk f)) ∧
    (BigQuery.startBatchTick parse copyOk deleteOk files).successRows =
      ((files.filter (fun f => (parse f).isSome && copyOk f)).map (fileRows parse)).sum := by
  induction files with
  | nil => simp [BigQuery.startBatchTick]
  | cons f rest ih =>
    cases hp : parse f with
    | none =>
      simp [BigQuery.startBatchTick, hp, fileRows, ih.1, ih.2.1, ih.2.2]
    | some trio =>
      obtain ⟨tn, tok, rows⟩ := trio
      cases hc : copyOk f <;> cases hd : deleteOk f <;>
        simp [BigQuery.startBatchTick, hp, hc, hd, fileRows, ih.1, ih.2.1, ih.2.2]
